import Mathlib

/-!
Shallow embedding of the PassiveGC memory manager (`src/MemManage.hpp`,
namespace `AutomaticMemory`) together with proofs checking the
natural-language specification against it.

Modelling conventions:
* `std::vector<unsigned char>` buffer contents are `List Nat`; the buffer's
  `data()` address is modelled by a `Nat` identifier handed out by a fresh
  counter (distinct live vectors have distinct data pointers).
* `size_t` counters are `Nat`.  In the traces considered here the usage
  counter never underflows (this is proved, not assumed, by the invariant),
  so `Nat` subtraction agrees with `size_t` arithmetic.
* C++ objects mutated through references become explicit state passing:
  an operation that mutates an object and also modifies its argument
  returns the pair of updated values.
* exceptions thrown by the standard library itself (e.g. `reserve` running
  out of memory) are outside the model; constructor exceptions of the
  user's type `T` are modelled by a boolean `ctorThrows` plus the message.
-/

/-- `Errors::base_error`: message, numeric code, and the mutable `exit`
flag that decides whether the destructor terminates the process. -/
structure base_error where
  message : String
  error_code : Int
  exit : Bool
deriving Repr, DecidableEq

/-- `base_error() = default`: empty message, code `-1`, `exit = false`. -/
def base_error.init : base_error := ⟨"", -1, false⟩

/-- `base_error(message, code)`: the arming constructor sets `exit = true`
(and prints to `stderr`, a side effect outside the model). -/
def base_error.mk_armed (msg : String) (code : Int) : base_error :=
  ⟨msg, code, true⟩

/-- `dont_exit()`: clears the `exit` flag. -/
def base_error.dont_exit (e : base_error) : base_error := { e with exit := false }

/-- `what()`. -/
def base_error.what (e : base_error) : String := e.message

/-- `~base_error()`: if the flag is still set the process terminates with
`error_code`; we record the exit code, `none` meaning no termination. -/
def base_error.destructorExit (e : base_error) : Option Int :=
  if e.exit then some e.error_code else none

/-- `base_error(base_error&& other)`: copies message, code and the `exit`
flag into the new object, then calls `other.dont_exit()`.  Returns
(constructed object, source after the move). -/
def base_error.moveCtor (other : base_error) : base_error × base_error :=
  (⟨other.message, other.error_code, other.exit⟩, other.dont_exit)

/-- `operator=(base_error&& other)`: assigns `message` and `_error_code`
but NOT the `exit` flag of the destination, then `other.dont_exit()`.
Returns (destination after, source after). -/
def base_error.moveAssign (this other : base_error) : base_error × base_error :=
  ({ this with message := other.message, error_code := other.error_code },
   other.dont_exit)

/-- `Errors::BadConstruct(message)`: `base_error(message, -2)`. -/
def BadConstruct.mk_msg (msg : String) : base_error := base_error.mk_armed msg (-2)

/-- `Errors::IndexOutOfBounds()`: `base_error("Index out of bounds", -3)`. -/
def IndexOutOfBounds.mk_default : base_error :=
  base_error.mk_armed "Index out of bounds" (-3)

/-- `Heap::Segment`: a raw buffer (`m_Memory : std::vector<unsigned char>`)
plus the requested `size`.  `addr` models the address returned by
`m_Memory.data()`. -/
structure Segment where
  addr : Nat
  m_Memory : List Nat
  size : Nat
deriving Repr, DecidableEq

/-- `Segment(size_t size)`: `m_Memory.reserve(size)` only reserves capacity,
so the byte vector itself stays empty. -/
def Segment.mk_sized (addr size : Nat) : Segment := ⟨addr, [], size⟩

/-- `Segment::operator==`: `m_Memory == other.m_Memory and size == other.size`
(the data address takes no part in the comparison). -/
def Segment.beq (a b : Segment) : Bool :=
  a.m_Memory == b.m_Memory && a.size == b.size

/-- The `Heap` state: the segment collection, the running usage counter,
and a fresh-address counter modelling the distinct `data()` pointers of
newly created vectors.  The global `inline Heap heap;` is zero-initialized
(static storage duration) before its constructor runs, so `memory_in_use`
starts at `0`. -/
structure Heap where
  m_Segments : List Segment
  memory_in_use : Nat
  nextAddr : Nat
deriving Repr, DecidableEq

/-- The global `heap` object at program start. -/
def Heap.init : Heap := ⟨[], 0, 0⟩

/-- `Heap::allocate(size)`: `memory_in_use += size`, then
`m_Segments.emplace_back(Segment{size})`; returns the heap together with
(the value of) the segment reference handed back. -/
def Heap.allocate (h : Heap) (size : Nat) : Heap × Segment :=
  let seg := Segment.mk_sized h.nextAddr size
  ({ m_Segments := h.m_Segments ++ [seg],
     memory_in_use := h.memory_in_use + size,
     nextAddr := h.nextAddr + 1 }, seg)

/-- `std::find` + `erase` over a list: locate the first element satisfying
the predicate and remove it, returning that element and the remainder. -/
def eraseFirstMatch (p : α → Bool) : List α → Option (α × List α)
  | [] => none
  | x :: xs =>
    if p x then some (x, xs)
    else
      match eraseFirstMatch p xs with
      | none => none
      | some (y, ys) => some (y, x :: ys)

/-- `Heap::free(Pointer&)` in terms of the handle's segment value:
`memory_in_use -= pointer.memsegment.size` happens first; then
`std::find(m_Segments.begin(), m_Segments.end(), pointer.memsegment)` looks
for the first segment comparing `==` to it and erases it when found
(`shrink_to_fit` only affects capacity and is invisible to the model). -/
def Heap.freeSeg (h : Heap) (seg : Segment) : Heap :=
  match eraseFirstMatch (fun s => Segment.beq s seg) h.m_Segments with
  | some (_, rest) =>
      { h with memory_in_use := h.memory_in_use - seg.size, m_Segments := rest }
  | none => { h with memory_in_use := h.memory_in_use - seg.size }

/-- `std::find_if` returning the index of the first element satisfying the
predicate (the iterator of the C++ code). -/
def findIdxP (p : α → Bool) : List α → Option Nat
  | [] => none
  | x :: xs =>
    if p x then some 0
    else
      match findIdxP p xs with
      | none => none
      | some j => some (j + 1)

/-- `Heap::free(std::vector<Segment>::iterator&)`: decrements the usage
counter by the found segment's size and erases it.  (The C++ code reads
`segment->size` before its `end()` check; its only caller passes a valid
iterator, which the `some` branch models.) -/
def Heap.freeIter (h : Heap) (i : Nat) : Heap :=
  match h.m_Segments.get? i with
  | some s =>
      { h with memory_in_use := h.memory_in_use - s.size,
               m_Segments := h.m_Segments.eraseIdx i }
  | none => h

/-- `Heap::Pointer<T, array>`: the owning handle.  `array_size` is set only
by `SetSize`; `none` models the indeterminate (never-written) field. -/
structure Pointer where
  m_Ptr : Nat
  freed : Bool
  moved : Bool
  memsegment : Segment
  owner : Nat
  error : base_error
  array_size : Option Nat
deriving Repr, DecidableEq

/-- `Pointer(T_* pointer, Heap* owner, Segment& memsegment)`: the private
constructor used by the allocation paths; `freed`/`moved` default to
`false`, `error` is default-constructed, `array_size` left unwritten. -/
def Pointer.mk_fresh (ptr : Nat) (owner : Nat) (seg : Segment) : Pointer :=
  { m_Ptr := ptr, freed := false, moved := false, memsegment := seg,
    owner := owner, error := base_error.init, array_size := none }

/-- `Pointer(Pointer&& other)`: the init list transfers `memsegment`,
`owner`, `m_Ptr` and `freed`; `error` and `array_size` are NOT in the init
list, so the new object's `error` is default-constructed and `array_size`
stays indeterminate.  The body sets `other.moved = true` and calls
`other.error.dont_exit()`.  Returns (destination, source after). -/
def Pointer.moveCtor (other : Pointer) : Pointer × Pointer :=
  ({ m_Ptr := other.m_Ptr, freed := other.freed, moved := false,
     memsegment := other.memsegment, owner := other.owner,
     error := base_error.init, array_size := none },
   { other with moved := true, error := other.error.dont_exit })

/-- `Pointer& SetError(Errors::base_error&& error)`: the parameter `error`
shadows the member `error`, so `error = std::move(error)` is
`operator=` with `this == &other`, applied to the parameter itself: its
message and code are reassigned to themselves and `other.dont_exit()`
clears its flag.  The member is never touched.  Returns (the pointer,
unchanged, and the parameter after the call, now disarmed). -/
def Pointer.SetError (p : Pointer) (e : base_error) : Pointer × base_error :=
  (p, { e with exit := false })

/-- `SetSize(size)` (array variant): writes `array_size`. -/
def Pointer.SetSize (p : Pointer) (size : Nat) : Pointer :=
  { p with array_size := some size }

/-- `operator[](size_t index)` (array variant): if
`index < 0 or index > array_size` (the first disjunct is vacuous for an
unsigned index) it calls `SetError(IndexOutOfBounds{})` on the handle;
either way the returned reference is `*(m_Ptr + index)`.  Returns the
handle after the call and the address of the returned reference. -/
def Pointer.subscript (p : Pointer) (index : Nat) : Pointer × Nat :=
  if index < 0 || index > p.array_size.getD 0 then
    ((p.SetError IndexOutOfBounds.mk_default).1, p.m_Ptr + index)
  else
    (p, p.m_Ptr + index)

/-- `Error()` accessor. -/
def Pointer.Error (p : Pointer) : base_error := p.error

/-- Whether the handle's destructor performs the real teardown
(`base_pointer::free` runs `free_impl` when `freed` is unset, and
`free_impl` destructs the contents and calls `owner->free(*this)` only
when `moved` is unset). -/
def Pointer.dropTeardown (p : Pointer) : Bool := !p.freed && !p.moved

/-- The handle after its destructor body (`freed` is set unless it already
was; nothing else changes). -/
def Pointer.afterDrop (p : Pointer) : Pointer :=
  if p.freed then p else { p with freed := true }

/-- Destroying the handle also destructs its embedded `error` member,
which may terminate the process. -/
def Pointer.dropExit (p : Pointer) : Option Int := p.error.destructorExit

/-- `Heap::allocate_constructed<T>(args...)`: allocates `sizeof(T)` bytes
and placement-constructs one `T`.  `ctorThrows` says whether the
constructor throws (with `what()` message `exnMsg`).  On a throw the code
builds a `BadConstruct` temporary, passes it to `SetError`, and returns
`std::move(pointer)`; on success it returns `std::move(pointer)` directly.
Both paths therefore run the `Pointer` move constructor once into the
return object.  Returns (heap after, returned handle). -/
def Heap.allocate_constructed (h : Heap) (sizeofT : Nat)
    (ctorThrows : Bool) (exnMsg : String) : Heap × Pointer :=
  let ha := h.allocate sizeofT
  let p := Pointer.mk_fresh ha.2.addr 0 ha.2
  if ctorThrows then
    let tempErr := BadConstruct.mk_msg
      ("Exception while constructing, construction stopped!\n  What: " ++ exnMsg)
    let pe := p.SetError tempErr
    (ha.1, pe.1.moveCtor.1)
  else
    (ha.1, p.moveCtor.1)

/-- `Allocator<T>::deallocate(p, n)`: `std::find_if` for the first segment
whose `data()` equals `p`; if none, `throw std::bad_alloc{}` (second
component `true`) with the heap untouched; otherwise `heap.free(it)`. -/
def Allocator.deallocate (h : Heap) (p : Nat) : Heap × Bool :=
  match findIdxP (fun s => s.addr == p) h.m_Segments with
  | none => (h, true)
  | some i => (h.freeIter i, false)

/-- `enum class SizeTypes : size_t`. -/
inductive SizeTypes where
  | Byte | Kibibyte | Mibibyte | Gibibyte | Kilobyte | Megabyte | Gigabyte
deriving Repr, DecidableEq

/-- The underlying enumerator values. -/
def SizeTypes.val : SizeTypes → Nat
  | .Byte => 1
  | .Kibibyte => 1024
  | .Mibibyte => 1048576
  | .Gibibyte => 1073741824
  | .Kilobyte => 1000
  | .Megabyte => 1000000
  | .Gigabyte => 1000000000

/-- `Heap::used_memory(convert)`:
`static_cast<float>(memory_in_use) / static_cast<size_t>(convert)`,
modelled in exact rational arithmetic (for the values checked below the
IEEE float division is exact, so the two agree). -/
def Heap.used_memory (h : Heap) (convert : SizeTypes) : ℚ :=
  (h.memory_in_use : ℚ) / (convert.val : ℚ)

/-!
## Reachable states of the Segment Store

The only callers of `Heap::allocate` are `allocate_constructed`,
`allocate_constructed_n` and `Allocator::allocate`; the only callers of the
private `free` overloads are `Pointer::free_impl` (handle teardown) and
`Allocator::deallocate`.  The machine below generates the states reachable
through allocations and handle drops: each live handle holds the value of
its bound segment, and dropping it runs `Heap::free(Pointer&)` on that
value.
-/

/-- One step of the Segment Store's public life: allocate a segment of a
given size (creating a live handle), or drop the `i`-th live handle. -/
inductive SysOp where
  | alloc (size : Nat)
  | drop (i : Nat)
deriving Repr, DecidableEq

/-- Heap plus the segments bound to the currently live (non-moved,
non-freed) handles. -/
structure Sys where
  heap : Heap
  handles : List Segment
deriving Repr, DecidableEq

def Sys.init : Sys := ⟨Heap.init, []⟩

def Sys.step (s : Sys) : SysOp → Sys
  | .alloc n =>
    let ha := s.heap.allocate n
    ⟨ha.1, s.handles ++ [ha.2]⟩
  | .drop i =>
    match s.handles.get? i with
    | none => s
    | some seg => ⟨s.heap.freeSeg seg, s.handles.eraseIdx i⟩

def Sys.run (s : Sys) (ops : List SysOp) : Sys := ops.foldl Sys.step s

/-- The store invariant: the usage counter equals the sum of the live
segment sizes, every buffer is still empty (allocation only reserves), and
the live handles' segment sizes are a permutation of the stored ones. -/
def SysInv (s : Sys) : Prop :=
  s.heap.memory_in_use = (s.heap.m_Segments.map Segment.size).sum
  ∧ (∀ t ∈ s.heap.m_Segments, t.m_Memory = [])
  ∧ (∀ t ∈ s.handles, t.m_Memory = [])
  ∧ (s.handles.map Segment.size).Perm (s.heap.m_Segments.map Segment.size)

theorem eraseFirstMatch_none {p : α → Bool} {l : List α}
    (h : eraseFirstMatch p l = none) : ∀ x ∈ l, p x = false := by
  induction l with
  | nil => intro x hx; cases hx
  | cons a l ih =>
    intro x hx
    by_cases hp : p a
    · simp [eraseFirstMatch, hp] at h
    · rcases List.mem_cons.mp hx with rfl | hx'
      · simpa using hp
      · apply ih _ x hx'
        simp only [eraseFirstMatch, hp, if_false] at h
        cases he : eraseFirstMatch p l with
        | none => rfl
        | some v => rw [he] at h; cases h

theorem eraseFirstMatch_some {p : α → Bool} {l l' : List α} {y : α}
    (h : eraseFirstMatch p l = some (y, l')) :
    p y = true ∧ l.Perm (y :: l') := by
  induction l generalizing l' with
  | nil => cases h
  | cons a l ih =>
    by_cases hp : p a
    · simp only [eraseFirstMatch, hp, if_true, Option.some.injEq, Prod.mk.injEq] at h
      obtain ⟨rfl, rfl⟩ := h
      exact ⟨hp, List.Perm.refl _⟩
    · simp only [eraseFirstMatch, hp, if_false] at h
      cases he : eraseFirstMatch p l with
      | none => rw [he] at h; cases h
      | some v =>
        rw [he] at h
        obtain ⟨z, zs⟩ := v
        simp only [Option.some.injEq, Prod.mk.injEq] at h
        obtain ⟨rfl, rfl⟩ := h
        obtain ⟨hz, hperm⟩ := ih he
        refine ⟨hz, ?_⟩
        exact (hperm.cons a).trans (List.Perm.swap y a zs)

theorem eraseFirstMatch_isSome {p : α → Bool} {l : List α} {x : α}
    (hx : x ∈ l) (hp : p x = true) : (eraseFirstMatch p l).isSome := by
  cases he : eraseFirstMatch p l with
  | none => exact absurd hp (by simp [eraseFirstMatch_none he x hx])
  | some v => rfl

theorem get?_perm_eraseIdx {l : List α} {i : Nat} {a : α}
    (h : l.get? i = some a) : l.Perm (a :: l.eraseIdx i) := by
  induction l generalizing i with
  | nil => cases h
  | cons x xs ih =>
    cases i with
    | zero =>
      simp only [List.get?] at h
      cases h
      simp [List.eraseIdx]
    | succ n =>
      simp only [List.get?] at h
      have := (ih h).cons x
      exact this.trans (List.Perm.swap a x _)

theorem sysInv_init : SysInv Sys.init := by
  refine ⟨rfl, ?_, ?_, List.Perm.refl _⟩ <;> intro t ht <;> cases ht

theorem sysInv_step (s : Sys) (op : SysOp) (h : SysInv s) :
    SysInv (s.step op) := by
  obtain ⟨husage, hsegmem, hhandmem, hperm⟩ := h
  cases op with
  | alloc n =>
    refine ⟨?_, ?_, ?_, ?_⟩
    · simp [Sys.step, Heap.allocate, husage, Segment.mk_sized, Nat.add_comm]
    · intro t ht
      simp only [Sys.step, Heap.allocate, List.mem_append, List.mem_singleton] at ht
      rcases ht with ht | rfl
      · exact hsegmem t ht
      · rfl
    · intro t ht
      simp only [Sys.step, Heap.allocate, List.mem_append, List.mem_singleton] at ht
      rcases ht with ht | rfl
      · exact hhandmem t ht
      · rfl
    · simp only [Sys.step, Heap.allocate, List.map_append]
      exact hperm.append (List.Perm.refl _)
  | drop i =>
    cases hg : s.handles.get? i with
    | none =>
      have hstep : s.step (SysOp.drop i) = s := by
        simp only [Sys.step, hg]
      rw [hstep]
      exact ⟨husage, hsegmem, hhandmem, hperm⟩
    | some seg =>
      have hsegmem_handle : seg ∈ s.handles := List.get?_mem hg
      have hsize_mem : seg.size ∈ s.heap.m_Segments.map Segment.size := by
        exact hperm.mem_iff.mp (List.mem_map_of_mem Segment.size hsegmem_handle)
      obtain ⟨t, htmem, htsize⟩ := List.mem_map.mp hsize_mem
      have htbeq : Segment.beq t seg = true := by
        simp [Segment.beq, hsegmem t htmem, hhandmem seg hsegmem_handle, htsize]
      cases he : eraseFirstMatch (fun u => Segment.beq u seg) s.heap.m_Segments with
      | none =>
        exact absurd htbeq (by simp [eraseFirstMatch_none he t htmem])
      | some v =>
        obtain ⟨y, rest⟩ := v
        obtain ⟨hy, hyperm⟩ := eraseFirstMatch_some he
        have hysize : y.size = seg.size := by
          have hymem : y ∈ s.heap.m_Segments := hyperm.mem_iff.mpr (by simp)
          have := hsegmem y hymem
          simp [Segment.beq, this, hhandmem seg hsegmem_handle] at hy
          exact hy
        have hsegs_perm : (s.heap.m_Segments.map Segment.size).Perm
            (seg.size :: rest.map Segment.size) := by
          simpa [hysize] using hyperm.map Segment.size
        have hhand_perm : (s.handles.map Segment.size).Perm
            (seg.size :: (s.handles.eraseIdx i).map Segment.size) := by
          simpa using (get?_perm_eraseIdx hg).map Segment.size
        have hstep : s.step (SysOp.drop i) =
            ⟨s.heap.freeSeg seg, s.handles.eraseIdx i⟩ := by
          simp only [Sys.step, hg]
        have hfree : s.heap.freeSeg seg =
            { s.heap with memory_in_use := s.heap.memory_in_use - seg.size,
                          m_Segments := rest } := by
          simp only [Heap.freeSeg, he]
        rw [hstep, hfree]
        refine ⟨?_, ?_, ?_, ?_⟩
        · show s.heap.memory_in_use - seg.size = (rest.map Segment.size).sum
          rw [husage, hsegs_perm.sum_eq]
          simp
        · intro t' ht'
          have : t' ∈ s.heap.m_Segments :=
            hyperm.mem_iff.mpr (List.mem_cons_of_mem y ht')
          exact hsegmem t' this
        · intro t' ht'
          exact hhandmem t' ((get?_perm_eraseIdx hg).mem_iff.mpr (List.mem_cons_of_mem seg ht'))
        · have : (seg.size :: (s.handles.eraseIdx i).map Segment.size).Perm
              (seg.size :: rest.map Segment.size) :=
            (hhand_perm.symm.trans hperm).trans hsegs_perm
          exact this.cons_inv

theorem sysInv_run (ops : List SysOp) (s : Sys) (h : SysInv s) :
    SysInv (s.run ops) := by
  induction ops generalizing s with
  | nil => exact h
  | cons op ops ih => exact ih _ (sysInv_step s op h)

/-!
## Claims
-/

theorem findIdxP_some {p : α → Bool} {l : List α} {i : Nat}
    (h : findIdxP p l = some i) : ∃ x, l.get? i = some x ∧ p x = true := by
  induction l generalizing i with
  | nil => cases h
  | cons a l ih =>
    by_cases hp : p a
    · simp only [findIdxP, hp, if_true, Option.some.injEq] at h
      subst h
      exact ⟨a, rfl, hp⟩
    · simp only [findIdxP, hp, if_false] at h
      cases hfx : findIdxP p l with
      | none => rw [hfx] at h; cases h
      | some j =>
        rw [hfx] at h
        simp at h
        subst h
        obtain ⟨x, hx, hpx⟩ := ih hfx
        exact ⟨x, by simpa using hx, hpx⟩

/-- C1 (evaluation of the code at the failing input, e.g.
`heap.allocate_constructed<A>("Hi World!")` with `A`'s constructor throwing
`std::runtime_error("some error")` as in `main.cpp`): the returned handle is
still valid (`freed`/`moved` unset), but — because `SetError`'s parameter
shadows the member and the `Pointer` move constructor default-constructs the
new `error` — its `Error().what()` is the EMPTY string and its error is
disarmed, so the process never terminates with `-2` even when `dont_exit()`
is never called.  The `BadConstruct` temporary itself is disarmed by the
self-assignment inside `SetError`, so it does not terminate either. -/
theorem C1_construction_error_lost :
    (Heap.allocate_constructed Heap.init 8 true "some error").2.freed = false
    ∧ (Heap.allocate_constructed Heap.init 8 true "some error").2.moved = false
    ∧ (Heap.allocate_constructed Heap.init 8 true "some error").2.Error.what = ""
    ∧ (Heap.allocate_constructed Heap.init 8 true "some error").2.Error.destructorExit = none
    ∧ ((Pointer.mk_fresh 0 0 (Segment.mk_sized 0 8)).SetError
        (BadConstruct.mk_msg "m")).2.destructorExit = none :=
  ⟨rfl, rfl, rfl, rfl, rfl⟩

/-- A live array-variant handle with stored element count 3 (as
`allocate_constructed_n<T>(3, ...)` would produce via `SetSize(3)`). -/
def arrayHandle3 : Pointer :=
  (Pointer.mk_fresh 0 0 (Segment.mk_sized 0 24)).SetSize 3

/-- C2 (evaluation of the code at the failing inputs): with stored count
`n = 3`, indexing at `i = 3` (`i >= n`, out of bounds) takes the in-range
branch — the guard is `index > array_size`, not `>=` — so no error is even
constructed; and indexing at `i = 5` runs `SetError`, whose shadowed
parameter leaves the handle's stored error unchanged.  In both cases the
handle still carries the default (empty, disarmed, code `-1`) error, never
an `IndexOutOfBounds` with code `-3`, and the returned reference is
computed by unchecked arithmetic at offset `i`. -/
theorem C2_index_error_not_recorded :
    (arrayHandle3.subscript 3).1.Error = base_error.init
    ∧ (arrayHandle3.subscript 3).2 = arrayHandle3.m_Ptr + 3
    ∧ (arrayHandle3.subscript 5).1 = arrayHandle3
    ∧ (arrayHandle3.subscript 5).1.Error = base_error.init
    ∧ (arrayHandle3.subscript 5).2 = arrayHandle3.m_Ptr + 5 :=
  ⟨rfl, rfl, rfl, rfl, rfl⟩

/-- C3 counterexample: move ASSIGNMENT does not transfer the armed state.
With an armed source (`exit = true`) and a default (disarmed) destination,
the destination's `exit` flag after `operator=` is still `false`, while the
claim requires it to carry the source's armed state (`true`). -/
theorem C3_counterexample :
    ¬ ((base_error.moveAssign base_error.init
          (base_error.mk_armed "m" (-5))).1.exit
        = (base_error.mk_armed "m" (-5)).exit) := by
  decide

/-- C3 (amended): move construction transfers message, code and the
armed/disarmed state and disarms the source; move assignment transfers the
message and code and disarms the source, but leaves the destination's
armed flag unchanged.  In both cases the moved-from error never terminates
the process at its scope end. -/
theorem C3_move_semantics (d s : base_error) :
    s.moveCtor.1.message = s.message
    ∧ s.moveCtor.1.error_code = s.error_code
    ∧ s.moveCtor.1.exit = s.exit
    ∧ s.moveCtor.2.exit = false
    ∧ s.moveCtor.2.destructorExit = none
    ∧ (base_error.moveAssign d s).1.message = s.message
    ∧ (base_error.moveAssign d s).1.error_code = s.error_code
    ∧ (base_error.moveAssign d s).1.exit = d.exit
    ∧ (base_error.moveAssign d s).2.exit = false
    ∧ (base_error.moveAssign d s).2.destructorExit = none :=
  ⟨rfl, rfl, rfl, rfl, rfl, rfl, rfl, rfl, rfl, rfl⟩

/-- A live pointer carrying an armed error and a stored element count, as a
concrete input for C4. -/
def armedPointer : Pointer :=
  { m_Ptr := 4, freed := false, moved := false,
    memsegment := Segment.mk_sized 0 8, owner := 0,
    error := base_error.mk_armed "boom" (-2), array_size := some 7 }

/-- C4 counterexample: the move constructor does NOT transfer the error
state or the element count: moving a handle whose error is armed with
message "boom" and whose count is 7 yields a destination with the
default-constructed error and no stored count. -/
theorem C4_counterexample :
    ¬ (armedPointer.moveCtor.1.error = armedPointer.error
       ∧ armedPointer.moveCtor.1.array_size = armedPointer.array_size) := by
  decide

/-- C4 (amended): move construction transfers the bound address, the
owning-store reference, the segment reference and the freed flag, and marks
the source inert (`moved = true`) with its error disarmed, so the source's
destructor performs no teardown and never terminates the process; but the
destination's error is default-constructed rather than transferred, and the
element count is not transferred (the field is left unwritten). -/
theorem C4_move_transfers (p : Pointer) :
    p.moveCtor.1.m_Ptr = p.m_Ptr
    ∧ p.moveCtor.1.owner = p.owner
    ∧ p.moveCtor.1.memsegment = p.memsegment
    ∧ p.moveCtor.1.freed = p.freed
    ∧ p.moveCtor.1.error = base_error.init
    ∧ p.moveCtor.1.array_size = none
    ∧ p.moveCtor.2.moved = true
    ∧ p.moveCtor.2.dropTeardown = false
    ∧ p.moveCtor.2.dropExit = none := by
  refine ⟨rfl, rfl, rfl, rfl, rfl, rfl, rfl, ?_, rfl⟩
  simp [Pointer.dropTeardown, Pointer.moveCtor]

/-- C5: in every state of the Segment Store reachable by any sequence of
allocate and free (handle-drop) operations, the running usage total equals
the sum of the sizes of all live segments in the collection. -/
theorem C5_usage_equals_sum (ops : List SysOp) :
    (Sys.run Sys.init ops).heap.memory_in_use
      = ((Sys.run Sys.init ops).heap.m_Segments.map Segment.size).sum :=
  (sysInv_run ops Sys.init sysInv_init).1

/-- C6: for every sequence of allocations and handle drops, once every
Owning Pointer handle has gone out of scope (no live handles remain), the
store's usage counter is exactly 0. -/
theorem C6_usage_zero_when_all_dropped (ops : List SysOp)
    (h : (Sys.run Sys.init ops).handles = []) :
    (Sys.run Sys.init ops).heap.memory_in_use = 0 := by
  obtain ⟨husage, -, -, hperm⟩ := sysInv_run ops Sys.init sysInv_init
  rw [h] at hperm
  have hnil : (Sys.run Sys.init ops).heap.m_Segments.map Segment.size = [] :=
    hperm.symm.eq_nil
  rw [husage, hnil]
  rfl

theorem C6_witness :
    (Sys.run Sys.init [SysOp.alloc 2048, SysOp.drop 0]).handles = []
    ∧ (Sys.run Sys.init [SysOp.alloc 2048, SysOp.drop 0]).heap.memory_in_use = 0 :=
  ⟨by decide, C6_usage_zero_when_all_dropped _ (by decide)⟩

/-- C7: moving a live Owning Pointer and letting both the moved-from
source and the moved-to destination reach end of scope performs the real
teardown (contents destructed, segment released via `owner->free`) exactly
once: the inert source's drop is a no-op (and its disarmed error cannot
terminate), while the destination performs the single real teardown. -/
theorem C7_move_single_teardown (p : Pointer)
    (hf : p.freed = false) (_hm : p.moved = false) :
    p.moveCtor.2.dropTeardown = false
    ∧ p.moveCtor.2.dropExit = none
    ∧ p.moveCtor.1.dropTeardown = true
    ∧ ((if p.moveCtor.2.dropTeardown then 1 else 0)
        + (if p.moveCtor.1.dropTeardown then 1 else 0) = 1) := by
  have hsrc : p.moveCtor.2.dropTeardown = false := by
    simp [Pointer.dropTeardown, Pointer.moveCtor]
  have hdst : p.moveCtor.1.dropTeardown = true := by
    simp [Pointer.dropTeardown, Pointer.moveCtor, hf]
  refine ⟨hsrc, rfl, hdst, ?_⟩
  rw [hsrc, hdst]
  rfl

theorem C7_witness :
    (Pointer.mk_fresh 0 0 (Segment.mk_sized 0 8)).freed = false
    ∧ (Pointer.mk_fresh 0 0 (Segment.mk_sized 0 8)).moveCtor.2.dropTeardown = false
    ∧ (Pointer.mk_fresh 0 0 (Segment.mk_sized 0 8)).moveCtor.1.dropTeardown = true := by
  have h := C7_move_single_teardown (Pointer.mk_fresh 0 0 (Segment.mk_sized 0 8)) rfl rfl
  exact ⟨rfl, h.1, h.2.2.1⟩

/-- C8: `Allocator<T>::deallocate(p, n)` scans the Segment Store for the
first segment whose data pointer equals `p`; if one is found, that segment
is erased and the usage counter decremented by its size (no hard failure);
if none is found, it reports a hard failure (`throw std::bad_alloc`, not an
Error Channel entry) and leaves the collection and the usage counter
unchanged. -/
theorem C8_deallocate (h : Heap) (p : Nat) :
    (findIdxP (fun s => s.addr == p) h.m_Segments = none →
      Allocator.deallocate h p = (h, true))
    ∧ (∀ i, findIdxP (fun s => s.addr == p) h.m_Segments = some i →
        (Allocator.deallocate h p).2 = false
        ∧ ∃ seg, h.m_Segments.get? i = some seg ∧ seg.addr = p
            ∧ (Allocator.deallocate h p).1.m_Segments = h.m_Segments.eraseIdx i
            ∧ (Allocator.deallocate h p).1.memory_in_use
                = h.memory_in_use - seg.size) := by
  constructor
  · intro hnone
    simp [Allocator.deallocate, hnone]
  · intro i hsome
    obtain ⟨seg, hget, haddr⟩ := findIdxP_some hsome
    have hde : Allocator.deallocate h p = (h.freeIter i, false) := by
      simp [Allocator.deallocate, hsome]
    have hfi : h.freeIter i
        = { h with memory_in_use := h.memory_in_use - seg.size,
                   m_Segments := h.m_Segments.eraseIdx i } := by
      simp only [Heap.freeIter, hget]
    refine ⟨by rw [hde], seg, hget, by simpa using haddr, ?_, ?_⟩
    · rw [hde, hfi]
    · rw [hde, hfi]

theorem C8_witness :
    Allocator.deallocate (Heap.init.allocate 16).1 5 = ((Heap.init.allocate 16).1, true)
    ∧ (Allocator.deallocate (Heap.init.allocate 16).1 0).2 = false := by
  constructor
  · exact (C8_deallocate (Heap.init.allocate 16).1 5).1 (by decide)
  · exact ((C8_deallocate (Heap.init.allocate 16).1 0).2 0 (by decide)).1

/-- C9: the size-unit enumerators carry exactly the byte values
Byte=1, Kibibyte=1024, Mibibyte=1048576, Gibibyte=1073741824, Kilobyte=1000,
Megabyte=1000000, Gigabyte=1000000000; `used_memory(unit)` is the usage
counter divided by the unit's byte value (so multiplying back by the unit
recovers the counter); and after allocating a single 2048-byte segment and
nothing else, `used_memory(Kibibyte)` is exactly 2. -/
theorem C9_used_memory :
    (SizeTypes.val .Byte = 1 ∧ SizeTypes.val .Kibibyte = 1024
     ∧ SizeTypes.val .Mibibyte = 1048576 ∧ SizeTypes.val .Gibibyte = 1073741824
     ∧ SizeTypes.val .Kilobyte = 1000 ∧ SizeTypes.val .Megabyte = 1000000
     ∧ SizeTypes.val .Gigabyte = 1000000000)
    ∧ (∀ (h : Heap) (u : SizeTypes), h.used_memory u * u.val = h.memory_in_use)
    ∧ (Heap.init.allocate 2048).1.used_memory SizeTypes.Kibibyte = 2 := by
  refine ⟨⟨rfl, rfl, rfl, rfl, rfl, rfl, rfl⟩, ?_, ?_⟩
  · intro h u
    have hu : ((u.val : Nat) : ℚ) ≠ 0 := by
      cases u <;> norm_num [SizeTypes.val]
    rw [Heap.used_memory, div_mul_cancel₀ _ hu]
  · norm_num [Heap.used_memory, Heap.allocate, Heap.init, SizeTypes.val]

/-- C10: two segments created by `Heap::allocate` with equal requested
sizes compare equal under `Segment::operator==` (allocation only reserves,
so both byte vectors are empty); consequently `Heap::free` removes the
FIRST size-matching segment, which need not be the one bound to the handle:
freeing the handle bound to the second of two equal-sized segments erases
the first and leaves the handle's own segment in the collection. -/
theorem C10_free_removes_first_match (n : Nat) :
    (∀ a a', Segment.beq (Segment.mk_sized a n) (Segment.mk_sized a' n) = true)
    ∧ (Segment.mk_sized 0 n).m_Memory = []
    ∧ ((Heap.init.allocate n).1.allocate n).1.m_Segments
        = [Segment.mk_sized 0 n, Segment.mk_sized 1 n]
    ∧ ((Heap.init.allocate n).1.allocate n).2 = Segment.mk_sized 1 n
    ∧ (((Heap.init.allocate n).1.allocate n).1.freeSeg
          (Segment.mk_sized 1 n)).m_Segments = [Segment.mk_sized 1 n]
    ∧ Segment.mk_sized 0 n ≠ Segment.mk_sized 1 n := by
  refine ⟨?_, rfl, rfl, rfl, ?_, ?_⟩
  · intro a a'
    simp [Segment.beq, Segment.mk_sized]
  · simp [Heap.freeSeg, eraseFirstMatch, Heap.allocate, Heap.init,
          Segment.beq, Segment.mk_sized]
  · simp [Segment.mk_sized]
